import Mathlib

/-!
# useVoice: recording sessions and speech playback

A shallow embedding of `src/hooks/useVoice.jsx`.  Every React ref becomes a field of a
state record, every callback installed by `startRecording`, `playAudio` and `stopAudio`
becomes a transition function on that record, and the browser (speech engine, timers,
network) is the environment that chooses which callback runs next.

* `window.dispatchEvent(new CustomEvent(..))` appends to the `dispatched` log;
* `setTimeout(() => onTranscriptionComplete(transcript), 0)` appends to `scheduled`;
* `setTimeout(cb, 200)` adds a pending timer with a deadline, `clearTimeout` removes it.
-/

namespace UseVoice

/-! ## JavaScript helpers -/

/-- White space and line terminators removed by `String.prototype.trim`. -/
def jsIsWhiteSpace (c : Char) : Bool :=
  let n := c.toNat
  n == 0x09 || n == 0x0A || n == 0x0B || n == 0x0C || n == 0x0D || n == 0x20 ||
  n == 0xA0 || n == 0x1680 || (0x2000 ≤ n && n ≤ 0x200A) || n == 0x2028 ||
  n == 0x2029 || n == 0x202F || n == 0x205F || n == 0x3000 || n == 0xFEFF

/-- The method `String.prototype.trim`. -/
def jsTrim (s : String) : String :=
  String.mk ((s.data.dropWhile jsIsWhiteSpace).reverse.dropWhile jsIsWhiteSpace).reverse

/-- The JavaScript values a transcript can take: native mode produces strings, manual
mode forwards whatever `data.transcript` holds in the parsed JSON response. -/
inductive JSVal where
  | undefined
  | null
  | bool (b : Bool)
  | number (n : ℚ)
  | string (s : String)
  /-- Any object or array (always truthy). -/
  | object
  deriving DecidableEq

/-- Truthiness as tested by `if (transcript)`. -/
def JSVal.truthy : JSVal → Bool
  | .undefined => false
  | .null => false
  | .bool b => b
  | .number n => n ≠ 0
  | .string s => s ≠ ""
  | .object => true

/-- A thrown exception or rejected promise. -/
inductive JSError where
  | typeError
  | networkError
  | domException
  deriving DecidableEq

/-- Events sent through `window.dispatchEvent`. -/
inductive BusEvent where
  /-- The event `voice:speech_end`. -/
  | speechEnd
  /-- The event `voice:transcription` with `detail.transcript`. -/
  | transcription (transcript : JSVal)
  deriving DecidableEq

/-- Recognises a `voice:transcription` event. -/
def BusEvent.isTranscription : BusEvent → Bool
  | .transcription _ => true
  | .speechEnd => false

/-- Transcripts carried by the `voice:transcription` events of a log, in order. -/
def transcriptsOf : List BusEvent → List JSVal
  | [] => []
  | .transcription t :: rest => t :: transcriptsOf rest
  | .speechEnd :: rest => transcriptsOf rest

/-! ## Native mode (Web Speech API), lines 49-125 -/

/-- One entry of `event.results`: `alternative` is `res[0] && res[0].transcript`. -/
structure RecognitionResult where
  alternative : Option String
  isFinal : Bool
  deriving DecidableEq

/-- The refs and observable effects of one native-mode session. -/
structure NativeSession where
  /-- Whether `onTranscriptionComplete` is truthy. -/
  hasCallback : Bool
  latestPartialRef : String
  didSendRef : Bool
  isRecording : Bool
  /-- Whether `speechRecRef.current` is non-null. -/
  speechRecRef : Bool
  /-- Events dispatched on `window`, oldest first. -/
  dispatched : List BusEvent
  /-- Arguments of the scheduled `onTranscriptionComplete` calls, oldest first. -/
  scheduled : List JSVal
  /-- Number of `rec.stop()` calls. -/
  engineStops : Nat
  deriving DecidableEq

/-- Callbacks the engine may invoke. -/
inductive NativeEvent where
  | onstart
  | onresult (results : List RecognitionResult)
  | onerror
  | onspeechend
  | onend
  deriving DecidableEq

/-- State right after `rec.start()` (lines 50-57 and 122). -/
def startNative (hasCallback : Bool) : NativeSession :=
  { hasCallback := hasCallback, latestPartialRef := "", didSendRef := false,
    isRecording := false, speechRecRef := true, dispatched := [], scheduled := [],
    engineStops := 0 }

/-- Body of the `for` loop of `rec.onresult`; the pair is
`(finalText, latestPartialRef.current)`. -/
def resultStep (acc : String × String) (res : RecognitionResult) : String × String :=
  let txt := res.alternative.getD ""
  if res.isFinal then (acc.1 ++ txt, acc.2)
  else (acc.1, if txt ≠ "" then txt else acc.2)

/-- The handler `rec.onresult` (lines 63-81). -/
def onresult (s : NativeSession) (results : List RecognitionResult) : NativeSession :=
  let acc := results.foldl resultStep ("", s.latestPartialRef)
  { s with latestPartialRef := if acc.1 ≠ "" then acc.1 else acc.2 }

/-- Delivery block shared by lines 94-100 and 110-116. -/
def deliver (s : NativeSession) (transcript : String) : NativeSession :=
  { s with
    didSendRef := true
    dispatched := s.dispatched ++ [.transcription (.string transcript)]
    scheduled := if s.hasCallback then s.scheduled ++ [.string transcript] else s.scheduled }

/-- The handler `rec.onspeechend` (lines 87-103). -/
def onspeechend (s : NativeSession) : NativeSession :=
  let s1 := { s with dispatched := s.dispatched ++ [.speechEnd] }
  let transcript := jsTrim s1.latestPartialRef
  let s2 := if transcript ≠ "" ∧ s1.didSendRef = false then deliver s1 transcript else s1
  { s2 with engineStops := s2.engineStops + 1 }

/-- The handler `rec.onend` (lines 105-120). -/
def onend (s : NativeSession) : NativeSession :=
  let s1 := { s with isRecording := false }
  let s2 :=
    if s1.didSendRef = false then
      let transcript := jsTrim s1.latestPartialRef
      if transcript ≠ "" then deliver s1 transcript else s1
    else s1
  { s2 with speechRecRef := false }

/-- One callback invocation. -/
def nativeStep (s : NativeSession) : NativeEvent → NativeSession
  | .onstart => { s with isRecording := true }
  | .onresult results => onresult s results
  | .onerror => s
  | .onspeechend => onspeechend s
  | .onend => onend s

/-- A whole sequence of callbacks. -/
def nativeRun (s : NativeSession) (evs : List NativeEvent) : NativeSession :=
  evs.foldl nativeStep s

/-! ## Transcription gateway, lines 269-295 -/

/-- The recorded audio handed to `transcribeAudio`. -/
structure Blob where
  mimeType : String
  size : Nat
  deriving DecidableEq

/-- Whether `pat` occurs at the head of `hay`. -/
def startsWithChars : List Char → List Char → Bool
  | _, [] => true
  | [], _ :: _ => false
  | h :: hs, p :: ps => h == p && startsWithChars hs ps

/-- Whether `pat` occurs somewhere in `hay`. -/
def includesChars : List Char → List Char → Bool
  | [], pat => startsWithChars [] pat
  | h :: hs, pat => startsWithChars (h :: hs) pat || includesChars hs pat

/-- The method `String.prototype.includes`. -/
def jsIncludes (s pat : String) : Bool :=
  includesChars s.data pat.data

/-- Name of the uploaded file, `recording.<ext>` (lines 272-273). -/
def recordingName (audioBlob : Blob) : String :=
  let ext :=
    if jsIncludes audioBlob.mimeType "mp4" then "mp4"
    else if jsIncludes audioBlob.mimeType "webm" then "webm" else "wav"
  "recording." ++ ext

/-- What `await response.json()` followed by `data.transcript` yields. -/
inductive JsonOutcome where
  /-- The promise `response.json()` rejects: the body is not JSON. -/
  | throws
  /-- The body is the JSON value `null`: reading `data.transcript` throws. -/
  | nullBody
  /-- The value of `data.transcript`, `undefined` when the property is absent. -/
  | value (transcript : JSVal)
  deriving DecidableEq

/-- What the network does with the upload. -/
inductive GatewayOutcome where
  /-- Building the form or `fetch` throws (transport failure). -/
  | requestThrows
  /-- A response with `response.ok` true. -/
  | success (json : JsonOutcome)
  /-- A response with `response.ok` false; `response.text()` may reject. -/
  | failure (status : Nat) (textRejects : Bool)
  deriving DecidableEq

/-- The `try` block of `transcribeAudio` (lines 271-290); the gateway answers the
upload of the file named `recordingName audioBlob`. -/
def transcribeAudioTry (audioBlob : Blob) (gateway : String → GatewayOutcome) :
    Except JSError JSVal :=
  match gateway (recordingName audioBlob) with
  | .requestThrows => .error .networkError
  | .success .throws => .error .domException
  | .success .nullBody => .error .typeError
  | .success (.value transcript) => .ok transcript
  | .failure _ _ => .ok .null

/-- The function `transcribeAudio`: the `try` block under its `catch` (lines 291-294). -/
def transcribeAudio (audioBlob : Blob) (gateway : String → GatewayOutcome) :
    Except JSError JSVal :=
  match transcribeAudioTry audioBlob gateway with
  | .ok v => .ok v
  | .error _ => .ok .null

/-! ## Manual mode (MediaRecorder and silence detection), lines 127-246 -/

/-- The `state` attribute of the MediaRecorder. -/
inductive RecorderState where
  | inactive
  | recording
  deriving DecidableEq

/-- The refs, closure variables and observable effects of one manual-mode session. -/
structure ManualSession where
  /-- Whether `onTranscriptionComplete` is truthy. -/
  hasCallback : Bool
  /-- Whether `getUserMedia` resolved with a stream. -/
  streamAcquired : Bool
  /-- One flag per track of the stream, `true` while the track is live. -/
  tracksLive : List Bool
  /-- Whether `mediaRecorderRef.current` is non-null. -/
  mediaRecorderRef : Bool
  recorderState : RecorderState
  /-- Value of `mediaRecorderRef.current.mimeType`. -/
  recorderMimeType : String
  /-- Sizes of the chunks in `audioChunksRef.current`. -/
  audioChunksRef : List Nat
  /-- Whether `audioContextRef.current` is non-null. -/
  audioContextRef : Bool
  /-- Whether an AudioContext has been created and not closed. -/
  audioContextOpen : Bool
  isRecording : Bool
  /-- Whether the `catch` block of `startRecording` ran (lines 243-246). -/
  alertShown : Bool
  lastSoundTime : Int
  isCheckingActive : Bool
  /-- Number of `requestAnimationFrame(checkSilence)` callbacks not yet run. -/
  pendingFrames : Nat
  /-- Number of `mediaRecorder.stop()` calls that took effect. -/
  recorderStops : Nat
  /-- Events dispatched on `window`, oldest first. -/
  dispatched : List BusEvent
  /-- Arguments of the scheduled `onTranscriptionComplete` calls, oldest first. -/
  scheduled : List JSVal
  deriving DecidableEq

/-- The constant `SILENCE_THRESHOLD` (line 163). -/
def SILENCE_THRESHOLD : ℚ := 30

/-- The constant `SILENCE_DURATION`, in milliseconds (line 164). -/
def SILENCE_DURATION : Int := 1000

/-- What the browser answers during the set-up of a manual session. -/
structure SetupEnv where
  /-- Value of `Date.now()` at line 162. -/
  now : Int
  /-- Number of tracks of the stream, `none` when `getUserMedia` rejects. -/
  getUserMedia : Option Nat
  /-- Value of `mediaRecorder.mimeType` once constructed. -/
  mimeType : String
  /-- Whether `new MediaRecorder(..)` returns (line 147). -/
  recorderCtorOk : Bool
  /-- Whether `new AudioCtx()` returns (line 153). -/
  audioCtxCtorOk : Bool
  /-- Whether `createMediaStreamSource`, `createAnalyser` and `connect` return. -/
  graphOk : Bool
  /-- Whether `mediaRecorder.start()` returns (line 235). -/
  recorderStartOk : Bool
  deriving DecidableEq

/-- The hook before `startRecording` is called. -/
def idleManual (hasCallback : Bool) : ManualSession :=
  { hasCallback := hasCallback, streamAcquired := false, tracksLive := [],
    mediaRecorderRef := false, recorderState := .inactive, recorderMimeType := "",
    audioChunksRef := [], audioContextRef := false, audioContextOpen := false,
    isRecording := false, alertShown := false, lastSoundTime := 0,
    isCheckingActive := false, pendingFrames := 0, recorderStops := 0,
    dispatched := [], scheduled := [] }

/-- The `catch` block of `startRecording` (lines 243-246): log and alert, nothing else. -/
def catchSetup (s : ManualSession) : ManualSession :=
  { s with alertShown := true }

/-- The manual branch of `startRecording` (lines 127-246), run until its promise
settles; a step that throws jumps to the `catch` block. -/
def startManual (hasCallback : Bool) (env : SetupEnv) : ManualSession :=
  let s0 := idleManual hasCallback
  match env.getUserMedia with
  | none => catchSetup s0
  | some n =>
    let s1 := { s0 with streamAcquired := true, tracksLive := List.replicate n true }
    if env.recorderCtorOk = false then catchSetup s1 else
    let s2 := { s1 with mediaRecorderRef := true, recorderMimeType := env.mimeType,
                        audioChunksRef := [] }
    if env.audioCtxCtorOk = false then catchSetup s2 else
    let s3 := { s2 with audioContextRef := true, audioContextOpen := true }
    if env.graphOk = false then catchSetup s3 else
    let s4 := { s3 with lastSoundTime := env.now, isCheckingActive := true }
    if env.recorderStartOk = false then catchSetup s4 else
    { s4 with recorderState := .recording, isRecording := true, pendingFrames := 1 }

/-- The function `checkSilence` (lines 167-188), called with the value of `Date.now()`
and the average of the 128 frequency bins (a byte sum divided by 128, exact in
double precision). -/
def checkSilence (s : ManualSession) (now : Int) (average : ℚ) : ManualSession :=
  if s.isCheckingActive = false ∨ s.mediaRecorderRef = false ∨
      s.recorderState ≠ .recording then s
  else if average > SILENCE_THRESHOLD then
    { s with lastSoundTime := now, pendingFrames := s.pendingFrames + 1 }
  else if now - s.lastSoundTime > SILENCE_DURATION then
    let s1 := { s with isCheckingActive := false }
    if s1.mediaRecorderRef = true ∧ s1.recorderState = .recording then
      { s1 with recorderState := .inactive, recorderStops := s1.recorderStops + 1 }
    else s1
  else { s with pendingFrames := s.pendingFrames + 1 }

/-- The browser runs one scheduled animation-frame callback, if there is one. -/
def animationFrame (s : ManualSession) (sample : Int × ℚ) : ManualSession :=
  if s.pendingFrames = 0 then s
  else checkSilence { s with pendingFrames := s.pendingFrames - 1 } sample.1 sample.2

/-- Polling over a series of `(time, average amplitude)` samples. -/
def pollRun (s : ManualSession) (samples : List (Int × ℚ)) : ManualSession :=
  samples.foldl animationFrame s

/-- The handler `mediaRecorder.ondataavailable` (lines 190-194). -/
def ondataavailable (s : ManualSession) (size : Nat) : ManualSession :=
  if size > 0 then { s with audioChunksRef := s.audioChunksRef ++ [size] } else s

/-- The manual branch of `stopRecording` (lines 259-266); `stop()` on an inactive
recorder throws. -/
def stopRecordingManual (s : ManualSession) : Except JSError ManualSession :=
  if s.mediaRecorderRef = true ∧ s.isRecording = true then
    if s.recorderState = .recording then
      .ok { s with recorderState := .inactive, recorderStops := s.recorderStops + 1,
                   isRecording := false }
    else .error .domException
  else .ok s

/-- The `type` of `new Blob(parts, { type })`: empty when the given type holds a
character outside U+0020..U+007E, otherwise the given type in ASCII lower case. -/
def blobType (given : String) : String :=
  if given.data.any (fun c => c.toNat < 0x20 || 0x7E < c.toNat) then ""
  else String.mk (given.data.map Char.toLower)

/-- The blob built at lines 206-207 from the recorded chunks. -/
def recordedBlob (s : ManualSession) : Blob :=
  let currentType :=
    if s.mediaRecorderRef = true ∧ s.recorderMimeType ≠ "" then s.recorderMimeType
    else "audio/webm"
  { mimeType := blobType currentType, size := s.audioChunksRef.sum }

/-- The handler `mediaRecorder.onstop` (lines 196-233). -/
def onstop (s : ManualSession) (gateway : String → GatewayOutcome) :
    Except JSError ManualSession :=
  let s1 : ManualSession :=
    { s with isCheckingActive := false, isRecording := false,
             dispatched := s.dispatched ++ [.speechEnd] }
  match transcribeAudio (recordedBlob s1) gateway with
  | .error e => .error e
  | .ok transcript =>
    let s2 : ManualSession :=
      if transcript.truthy then
        { s1 with dispatched := s1.dispatched ++ [.transcription transcript] }
      else s1
    let s3 : ManualSession :=
      if transcript.truthy ∧ s2.hasCallback = true then
        { s2 with scheduled := s2.scheduled ++ [transcript] }
      else s2
    .ok { s3 with
      tracksLive := s3.tracksLive.map (fun _ => false)
      audioContextOpen := if s3.audioContextRef then false else s3.audioContextOpen
      audioContextRef := false }

/-! ## Playback, lines 297-350 -/

/-- A pending `setTimeout` callback; every timer of the hook that matters here runs
the grace callback of lines 323-327. -/
structure Timer where
  id : Nat
  deadline : Nat
  deriving DecidableEq

/-- The refs and state of the playback controller, with a clock in milliseconds. -/
structure Playback where
  now : Nat
  activeUtterancesRef : Int
  /-- Handle stored in `endGraceTimeoutRef.current`; handles returned by `setTimeout`
  are positive, hence truthy, so the ref is truthy exactly when it is not null. -/
  endGraceTimeoutRef : Option Nat
  isPlaying : Bool
  /-- Pending timers, in the order they were armed. -/
  timers : List Timer
  nextTimerId : Nat
  /-- Every `setIsPlaying` call with the time at which it ran, oldest first. -/
  playingLog : List (Nat × Bool)
  deriving DecidableEq

/-- The grace delay of line 327, in milliseconds. -/
def GRACE_MS : Nat := 200

/-- The hook when mounted. -/
def initPlayback : Playback :=
  { now := 0, activeUtterancesRef := 0, endGraceTimeoutRef := none, isPlaying := false,
    timers := [], nextTimerId := 1, playingLog := [] }

/-- The call `setIsPlaying(b)`. -/
def setIsPlaying (s : Playback) (b : Bool) : Playback :=
  { s with isPlaying := b, playingLog := s.playingLog ++ [(s.now, b)] }

/-- The call `clearTimeout(id)`. -/
def clearTimeout (s : Playback) (id : Nat) : Playback :=
  { s with timers := s.timers.filter (fun tm => tm.id ≠ id) }

/-- The function `playAudio` (lines 297-338); `speakThrows` tells whether building or
queueing the utterance throws, which runs the `catch` block. -/
def playAudio (s : Playback) (speakThrows : Bool) : Playback :=
  let s1 :=
    match s.endGraceTimeoutRef with
    | some id => { clearTimeout s id with endGraceTimeoutRef := none }
    | none => s
  if speakThrows then setIsPlaying s1 false else s1

/-- The handler `utterance.onstart` (lines 315-318). -/
def onstart (s : Playback) : Playback :=
  setIsPlaying { s with activeUtterancesRef := s.activeUtterancesRef + 1 } true

/-- The function `handleDone`, installed as `onend` and `onerror` (lines 319-331). -/
def handleDone (s : Playback) : Playback :=
  let s1 := { s with activeUtterancesRef := max 0 (s.activeUtterancesRef - 1) }
  if s1.activeUtterancesRef = 0 then
    { s1 with
      timers := s1.timers ++ [{ id := s1.nextTimerId, deadline := s1.now + GRACE_MS }]
      endGraceTimeoutRef := some s1.nextTimerId
      nextTimerId := s1.nextTimerId + 1 }
  else s1

/-- The grace callback of one timer runs at its deadline (lines 323-327). -/
def fireTimer (s : Playback) (tm : Timer) : Playback :=
  let s1 := { s with now := max s.now tm.deadline }
  if s1.activeUtterancesRef = 0 then setIsPlaying s1 false else s1

/-- The function `stopAudio` (lines 340-350); `cancelThrows` tells whether
`speechSynthesis.cancel()` throws inside its `try`. -/
def stopAudio (s : Playback) (_cancelThrows : Bool) : Playback :=
  let s1 := { s with activeUtterancesRef := 0 }
  let s2 :=
    match s1.endGraceTimeoutRef with
    | some id => { clearTimeout s1 id with endGraceTimeoutRef := none }
    | none => s1
  setIsPlaying s2 false

/-- Time passes until `t`: the timers due by then fire in the order they were armed. -/
def advance (s : Playback) (t : Nat) : Playback :=
  let due := s.timers.filter (fun tm => tm.deadline ≤ t)
  let s1 := due.foldl fireTimer { s with timers := s.timers.filter (fun tm => t < tm.deadline) }
  { s1 with now := max s1.now t }

/-- Calls and callbacks of the playback controller; `u` names the utterance whose
handler runs (all utterances share the refs). -/
inductive PlaybackEvent where
  | playAudio (u : Nat) (speakThrows : Bool)
  | onstart (u : Nat)
  | onend (u : Nat)
  | onerror (u : Nat)
  | stopAudio (cancelThrows : Bool)
  deriving DecidableEq

/-- The effect of one call or callback. -/
def playbackHandle (s : Playback) : PlaybackEvent → Playback
  | .playAudio _ speakThrows => playAudio s speakThrows
  | .onstart _ => onstart s
  | .onend _ => handleDone s
  | .onerror _ => handleDone s
  | .stopAudio cancelThrows => stopAudio s cancelThrows

/-- One call or callback happening at time `ev.1`. -/
def playbackStep (s : Playback) (ev : Nat × PlaybackEvent) : Playback :=
  playbackHandle (advance s ev.1) ev.2

/-- A timed sequence of calls and callbacks. -/
def playbackRun (s : Playback) (evs : List (Nat × PlaybackEvent)) : Playback :=
  evs.foldl playbackStep s

/-- Utterances that have started and have not yet ended or errored. -/
def liveAfter (live : List Nat) : PlaybackEvent → List Nat
  | .onstart u => u :: live
  | .onend u => live.erase u
  | .onerror u => live.erase u
  | .playAudio _ _ => live
  | .stopAudio _ => live

/-- The started and unfinished utterances after a timed sequence. -/
def liveUtterances (live : List Nat) (evs : List (Nat × PlaybackEvent)) : List Nat :=
  evs.foldl (fun l ev => liveAfter l ev.2) live

/-- Every end or error belongs to an utterance that has started and not yet
finished, no utterance starts twice, and `stopAudio` is not called. -/
def matched (live : List Nat) : List (Nat × PlaybackEvent) → Prop
  | [] => True
  | (_, .onstart u) :: rest => u ∉ live ∧ matched (u :: live) rest
  | (_, .onend u) :: rest => u ∈ live ∧ matched (live.erase u) rest
  | (_, .onerror u) :: rest => u ∈ live ∧ matched (live.erase u) rest
  | (_, .playAudio _ _) :: rest => matched live rest
  | (_, .stopAudio _) :: _ => False

/-- Calls and callbacks of a manual-mode session. -/
inductive ManualEvent where
  | frame (sample : Int × ℚ)
  | dataavailable (size : Nat)
  | stopRecording
  | onstop (gateway : String → GatewayOutcome)

/-- One call or callback; an exception escaping a handler leaves the refs as they were. -/
def manualStep (s : ManualSession) : ManualEvent → ManualSession
  | .frame sample => animationFrame s sample
  | .dataavailable size => ondataavailable s size
  | .stopRecording =>
    match stopRecordingManual s with
    | .ok s1 => s1
    | .error _ => s
  | .onstop gateway =>
    match onstop s gateway with
    | .ok s1 => s1
    | .error _ => s

/-- A whole sequence of manual-mode calls and callbacks. -/
def manualRun (s : ManualSession) (evs : List ManualEvent) : ManualSession :=
  evs.foldl manualStep s

/-- Every `voice:transcription` event of the log has a `voice:speech_end` before it. -/
def SpeechEndFirst (log : List BusEvent) : Prop :=
  ∀ l1 t l2, log = l1 ++ BusEvent.transcription t :: l2 → BusEvent.speechEnd ∈ l1

/-- What a session has put on the bus and on the timer queue so far. -/
def AtMostOnce (s : NativeSession) : Prop :=
  (transcriptsOf s.dispatched).length ≤ 1 ∧ s.scheduled.length ≤ 1 ∧
  (s.didSendRef = false → transcriptsOf s.dispatched = [] ∧ s.scheduled = [])

/-- Nothing has been delivered yet and the bus is still silent. -/
def Undelivered (s : NativeSession) : Prop :=
  s.didSendRef = false ∧ s.dispatched = [] ∧ s.scheduled = []

/-- No transcript has been delivered so far: the flag is down, no
`voice:transcription` is on the bus and no callback is scheduled. -/
def NothingSent (s : NativeSession) : Prop :=
  s.didSendRef = false ∧ transcriptsOf s.dispatched = [] ∧ s.scheduled = []

/-- The flag `didSendRef` is up only when a `voice:transcription` is on the bus. -/
def FlagShown (s : NativeSession) : Prop :=
  transcriptsOf s.dispatched = [] → s.didSendRef = false

/-- The transcript `t` has been delivered, once. -/
def DeliveredOnce (s : NativeSession) (t : String) : Prop :=
  s.didSendRef = true ∧ transcriptsOf s.dispatched = [.string t] ∧
  s.scheduled = if s.hasCallback then [.string t] else []

/-- The bus is silent or its first event is `voice:speech_end`. -/
def HeadedBySpeechEnd (log : List BusEvent) : Prop :=
  log = [] ∨ ∃ rest, log = BusEvent.speechEnd :: rest

/-- The detector loop is running: one frame is scheduled and no stop was issued. -/
def Polling (s : ManualSession) : Prop :=
  s.isCheckingActive = true ∧ s.mediaRecorderRef = true ∧ s.recorderState = .recording ∧
  s.pendingFrames = 1 ∧ s.recorderStops = 0

/-- The detector has issued its single stop and schedules no further frame. -/
def SilenceConfirmed (s : ManualSession) : Prop :=
  s.isCheckingActive = false ∧ s.recorderState = .inactive ∧ s.pendingFrames = 0 ∧
  s.recorderStops = 1

/-! # Theorems -/

/-! ## Native mode: delivery -/

theorem transcriptsOf_append (a b : List BusEvent) :
    transcriptsOf (a ++ b) = transcriptsOf a ++ transcriptsOf b := by
  induction a with
  | nil => rfl
  | cons x xs ih =>
    cases x with
    | speechEnd => simpa [transcriptsOf] using ih
    | transcription t => simp [transcriptsOf, ih]

theorem nativeRun_append (s : NativeSession) (a b : List NativeEvent) :
    nativeRun s (a ++ b) = nativeRun (nativeRun s a) b := by
  simp [nativeRun, List.foldl_append]

theorem nativeRun_cons (s : NativeSession) (e : NativeEvent) (evs : List NativeEvent) :
    nativeRun s (e :: evs) = nativeRun (nativeStep s e) evs := rfl

theorem deliver_atMostOnce (s : NativeSession) (t : String) (h : AtMostOnce s)
    (hd : s.didSendRef = false) : AtMostOnce (deliver s t) := by
  obtain ⟨_, _, h3⟩ := h
  obtain ⟨h4, h5⟩ := h3 hd
  refine ⟨?_, ?_, ?_⟩
  · simp [deliver, transcriptsOf_append, h4, transcriptsOf]
  · cases hc : s.hasCallback <;> simp [deliver, hc, h5]
  · intro hf; simp [deliver] at hf

theorem nativeStep_atMostOnce (s : NativeSession) (e : NativeEvent) (h : AtMostOnce s) :
    AtMostOnce (nativeStep s e) := by
  cases e with
  | onstart => exact h
  | onresult r => exact h
  | onerror => exact h
  | onspeechend =>
    have h1 : AtMostOnce { s with dispatched := s.dispatched ++ [.speechEnd] } := by
      obtain ⟨a, b, c⟩ := h
      refine ⟨?_, b, ?_⟩
      · simpa [transcriptsOf_append, transcriptsOf] using a
      · intro hf
        simpa [transcriptsOf_append, transcriptsOf] using c hf
    simp only [nativeStep, onspeechend]
    split
    · next hc => exact deliver_atMostOnce _ _ h1 hc.2
    · exact h1
  | onend =>
    simp only [nativeStep, onend]
    split
    · next hd =>
      split
      · exact deliver_atMostOnce _ _ h hd
      · exact h
    · exact h

theorem nativeRun_atMostOnce (evs : List NativeEvent) (s : NativeSession)
    (h : AtMostOnce s) : AtMostOnce (nativeRun s evs) := by
  induction evs generalizing s with
  | nil => exact h
  | cons e es ih => exact ih _ (nativeStep_atMostOnce s e h)

/-- C1: after one start of a native-mode session, whatever callbacks the engine
invokes (results, errors, end-of-speech, session-end, in any order and number), the
event `voice:transcription` is dispatched at most once and the completion callback is
scheduled at most once. -/
theorem native_delivers_at_most_once (hasCallback : Bool) (evs : List NativeEvent) :
    (transcriptsOf (nativeRun (startNative hasCallback) evs).dispatched).length ≤ 1 ∧
    (nativeRun (startNative hasCallback) evs).scheduled.length ≤ 1 := by
  have h := nativeRun_atMostOnce evs (startNative hasCallback)
    ⟨by simp [startNative, transcriptsOf], by simp [startNative],
     fun _ => by simp [startNative, transcriptsOf]⟩
  exact ⟨h.1, h.2.1⟩

theorem jsTrim_empty : jsTrim "" = "" := by decide

theorem empty_append_string (t : String) : "" ++ t = t := by
  apply String.ext
  simp [String.data_append]

theorem nativeStep_hasCallback (s : NativeSession) (e : NativeEvent) :
    (nativeStep s e).hasCallback = s.hasCallback := by
  cases e with
  | onstart => rfl
  | onresult r => rfl
  | onerror => rfl
  | onspeechend =>
    simp only [nativeStep, onspeechend]
    split <;> simp [deliver]
  | onend =>
    simp only [nativeStep, onend]
    split
    · split <;> simp [deliver]
    · rfl

theorem nativeRun_hasCallback (evs : List NativeEvent) (s : NativeSession) :
    (nativeRun s evs).hasCallback = s.hasCallback := by
  induction evs generalizing s with
  | nil => rfl
  | cons e es ih => rw [nativeRun_cons, ih, nativeStep_hasCallback]

theorem nativeStep_undelivered (s : NativeSession) (e : NativeEvent)
    (he : e ≠ .onspeechend ∧ e ≠ .onend) (h : Undelivered s) :
    Undelivered (nativeStep s e) := by
  cases e with
  | onstart => exact h
  | onresult r => exact h
  | onerror => exact h
  | onspeechend => exact absurd rfl he.1
  | onend => exact absurd rfl he.2

theorem nativeRun_undelivered (evs : List NativeEvent) (s : NativeSession)
    (he : ∀ e ∈ evs, e ≠ .onspeechend ∧ e ≠ .onend) (h : Undelivered s) :
    Undelivered (nativeRun s evs) := by
  induction evs generalizing s with
  | nil => exact h
  | cons e es ih =>
    rw [nativeRun_cons]
    exact ih _ (fun x hx => he x (List.mem_cons_of_mem _ hx))
      (nativeStep_undelivered s e (he e (List.mem_cons_self _ _)) h)

theorem resultStep_interims (rs : List RecognitionResult) (acc : String × String)
    (h : ∀ r ∈ rs, r.isFinal = false) : (rs.foldl resultStep acc).1 = acc.1 := by
  induction rs generalizing acc with
  | nil => rfl
  | cons r rest ih =>
    rw [List.foldl_cons, ih _ (fun x hx => h x (List.mem_cons_of_mem _ hx))]
    simp [resultStep, h r (List.mem_cons_self _ _)]

theorem onresult_final (s : NativeSession) (before after : List RecognitionResult)
    (txt : String) (hb : ∀ r ∈ before, r.isFinal = false)
    (ha : ∀ r ∈ after, r.isFinal = false) (h : txt ≠ "") :
    (onresult s (before ++ ⟨some txt, true⟩ :: after)).latestPartialRef = txt := by
  have h1 : ((before ++ ⟨some txt, true⟩ :: after).foldl resultStep
      ("", s.latestPartialRef)).1 = txt := by
    rw [List.foldl_append, List.foldl_cons, resultStep_interims after _ ha]
    simp [resultStep, resultStep_interims before _ hb, empty_append_string]
  unfold onresult
  simp only [h1]
  simp [h]

theorem nativeStep_flagShown (s : NativeSession) (e : NativeEvent) (h : FlagShown s) :
    FlagShown (nativeStep s e) := by
  cases e with
  | onstart => exact h
  | onresult r => exact h
  | onerror => exact h
  | onspeechend =>
    intro hnil
    simp only [nativeStep, onspeechend] at hnil ⊢
    split at hnil
    · simp [deliver, transcriptsOf_append, transcriptsOf] at hnil
    · next hc =>
      rw [if_neg hc]
      exact h (by simpa [transcriptsOf_append, transcriptsOf] using hnil)
  | onend =>
    intro hnil
    simp only [nativeStep, onend] at hnil ⊢
    split at hnil
    · next hd =>
      split at hnil
      · simp [deliver, transcriptsOf_append, transcriptsOf] at hnil
      · next hc => rw [if_pos hd, if_neg hc]; exact hd
    · next hd => rw [if_neg hd]; exact h hnil

theorem nativeRun_flagShown (evs : List NativeEvent) (s : NativeSession)
    (h : FlagShown s) : FlagShown (nativeRun s evs) := by
  induction evs generalizing s with
  | nil => exact h
  | cons e es ih => exact ih _ (nativeStep_flagShown s e h)

theorem nothingSent_of_silent (hasCallback : Bool) (evs : List NativeEvent)
    (h : transcriptsOf (nativeRun (startNative hasCallback) evs).dispatched = []) :
    NothingSent (nativeRun (startNative hasCallback) evs) := by
  have hf : (nativeRun (startNative hasCallback) evs).didSendRef = false :=
    nativeRun_flagShown evs (startNative hasCallback) (fun _ => rfl) h
  have ha := nativeRun_atMostOnce evs (startNative hasCallback)
    ⟨by simp [startNative, transcriptsOf], by simp [startNative],
     fun _ => by simp [startNative, transcriptsOf]⟩
  exact ⟨hf, h, (ha.2.2 hf).2⟩

theorem nativeRun_quiet_nothingSent (evs : List NativeEvent) (s : NativeSession)
    (he : ∀ e ∈ evs, e = .onerror ∨ e = .onstart) (h : NothingSent s) :
    NothingSent (nativeRun s evs) := by
  induction evs generalizing s with
  | nil => exact h
  | cons e es ih =>
    rw [nativeRun_cons]
    apply ih _ (fun x hx => he x (List.mem_cons_of_mem _ hx))
    rcases he e (List.mem_cons_self _ _) with h1 | h1 <;> subst h1 <;> exact h

theorem nativeRun_quiet_latest (evs : List NativeEvent) (s : NativeSession)
    (he : ∀ e ∈ evs, e = .onerror ∨ e = .onstart) :
    (nativeRun s evs).latestPartialRef = s.latestPartialRef := by
  induction evs generalizing s with
  | nil => rfl
  | cons e es ih =>
    rw [nativeRun_cons, ih _ (fun x hx => he x (List.mem_cons_of_mem _ hx))]
    rcases he e (List.mem_cons_self _ _) with h | h <;> subst h <;> rfl

theorem trigger_delivers (s : NativeSession) (trig : NativeEvent)
    (htrig : trig = .onspeechend ∨ trig = .onend) (h : NothingSent s)
    (hne : jsTrim s.latestPartialRef ≠ "") :
    DeliveredOnce (nativeStep s trig) (jsTrim s.latestPartialRef) := by
  obtain ⟨h1, h2, h3⟩ := h
  rcases htrig with rfl | rfl
  · cases hc : s.hasCallback <;>
      simp [nativeStep, onspeechend, deliver, DeliveredOnce, h1, h2, h3, hne, hc,
        transcriptsOf, transcriptsOf_append]
  · cases hc : s.hasCallback <;>
      simp [nativeStep, onend, deliver, DeliveredOnce, h1, h2, h3, hne, hc, transcriptsOf,
        transcriptsOf_append]

theorem nativeStep_deliveredOnce (s : NativeSession) (e : NativeEvent) (t : String)
    (h : DeliveredOnce s t) : DeliveredOnce (nativeStep s e) t := by
  obtain ⟨h1, h2, h3⟩ := h
  cases e with
  | onstart => exact ⟨h1, h2, h3⟩
  | onresult r => exact ⟨h1, h2, h3⟩
  | onerror => exact ⟨h1, h2, h3⟩
  | onspeechend =>
    refine ⟨?_, ?_, ?_⟩
    · simp [nativeStep, onspeechend, h1]
    · simp [nativeStep, onspeechend, h1, transcriptsOf_append, h2, transcriptsOf]
    · simpa [nativeStep, onspeechend, h1] using h3
  | onend =>
    refine ⟨?_, ?_, ?_⟩
    · simp [nativeStep, onend, h1]
    · simp [nativeStep, onend, h1, h2]
    · simpa [nativeStep, onend, h1] using h3

theorem nativeRun_deliveredOnce (evs : List NativeEvent) (s : NativeSession) (t : String)
    (h : DeliveredOnce s t) : DeliveredOnce (nativeRun s evs) t := by
  induction evs generalizing s with
  | nil => exact h
  | cons e es ih => exact ih _ (nativeStep_deliveredOnce s e t h)

/-- The rule of delivery: the first end-of-speech or session-end signal that finds a
non-blank text while nothing was delivered delivers that text, trimmed, and nothing
else is delivered afterwards. -/
theorem first_nonblank_signal_delivers (hasCallback : Bool) (pre post : List NativeEvent)
    (trig : NativeEvent) (htrig : trig = .onspeechend ∨ trig = .onend)
    (hpre : transcriptsOf (nativeRun (startNative hasCallback) pre).dispatched = [])
    (hne : jsTrim (nativeRun (startNative hasCallback) pre).latestPartialRef ≠ "") :
    DeliveredOnce (nativeRun (startNative hasCallback) (pre ++ trig :: post))
      (jsTrim (nativeRun (startNative hasCallback) pre).latestPartialRef) := by
  rw [nativeRun_append, nativeRun_cons]
  exact nativeRun_deliveredOnce post _ _
    (trigger_delivers _ trig htrig (nothingSent_of_silent hasCallback pre hpre) hne)

theorem startNative_undelivered (hasCallback : Bool) : Undelivered (startNative hasCallback) :=
  ⟨rfl, rfl, rfl⟩

/-- C2 (as the code has it): when no transcript has been delivered before the final
result is reported, the final result is the last result reported before the next
end-of-speech or session-end signal (its event may carry interim entries beside the
one final entry), and the final text is not blank, then exactly one transcript is
delivered, to the bus and to the callback if one was given, whatever events follow, and
it is the final text with surrounding white space trimmed, never an interim fragment. -/
theorem native_delivers_final_text (hasCallback : Bool) (pre mid post : List NativeEvent)
    (before after : List RecognitionResult) (txt : String) (trig : NativeEvent)
    (hpre : transcriptsOf (nativeRun (startNative hasCallback) pre).dispatched = [])
    (hbefore : ∀ r ∈ before, r.isFinal = false)
    (hafter : ∀ r ∈ after, r.isFinal = false)
    (hmid : ∀ e ∈ mid, e = .onerror ∨ e = .onstart)
    (htrig : trig = .onspeechend ∨ trig = .onend)
    (htxt : jsTrim txt ≠ "") :
    transcriptsOf (nativeRun (startNative hasCallback)
        (pre ++ .onresult (before ++ ⟨some txt, true⟩ :: after) :: mid
          ++ trig :: post)).dispatched
      = [.string (jsTrim txt)] ∧
    (nativeRun (startNative hasCallback)
        (pre ++ .onresult (before ++ ⟨some txt, true⟩ :: after) :: mid
          ++ trig :: post)).scheduled
      = if hasCallback then [.string (jsTrim txt)] else [] := by
  have hne : txt ≠ "" := fun h => htxt (by rw [h]; exact jsTrim_empty)
  have h0 := nothingSent_of_silent hasCallback pre hpre
  have h1 : NothingSent (nativeRun (startNative hasCallback)
      (pre ++ .onresult (before ++ ⟨some txt, true⟩ :: after) :: mid)) := by
    rw [nativeRun_append, nativeRun_cons]
    exact nativeRun_quiet_nothingSent mid _ hmid h0
  have hlp : (nativeRun (startNative hasCallback)
      (pre ++ .onresult (before ++ ⟨some txt, true⟩ :: after) :: mid)).latestPartialRef
      = txt := by
    rw [nativeRun_append, nativeRun_cons, nativeRun_quiet_latest mid _ hmid]
    exact onresult_final _ before after txt hbefore hafter hne
  have hd := trigger_delivers _ trig htrig h1 (by rw [hlp]; exact htxt)
  rw [hlp] at hd
  have hfin := nativeRun_deliveredOnce post _ _ hd
  rw [← nativeRun_cons, ← nativeRun_append] at hfin
  obtain ⟨_, h2, h3⟩ := hfin
  rw [nativeRun_hasCallback] at h3
  exact ⟨h2, h3⟩

/-- C2, witness: the scenario of the specification, after an end-of-speech signal
that found no text yet, with the session-end signal after the final result. -/
theorem native_delivers_final_text_witness :
    transcriptsOf (nativeRun (startNative true)
        ([.onstart, .onspeechend, .onresult [⟨some "bonj", false⟩],
          .onresult [⟨some "bonjour", false⟩]] ++
          .onresult ([] ++ ⟨some "Bonjour, comment vas-tu ?", true⟩ :: []) :: [.onerror]
          ++ .onend :: [.onspeechend])).dispatched
      = [.string (jsTrim "Bonjour, comment vas-tu ?")] ∧
    (nativeRun (startNative true)
        ([.onstart, .onspeechend, .onresult [⟨some "bonj", false⟩],
          .onresult [⟨some "bonjour", false⟩]] ++
          .onresult ([] ++ ⟨some "Bonjour, comment vas-tu ?", true⟩ :: []) :: [.onerror]
          ++ .onend :: [.onspeechend])).scheduled
      = if true then [.string (jsTrim "Bonjour, comment vas-tu ?")] else [] :=
  native_delivers_final_text true
    [.onstart, .onspeechend, .onresult [⟨some "bonj", false⟩],
      .onresult [⟨some "bonjour", false⟩]] [.onerror] [.onspeechend] [] []
    "Bonjour, comment vas-tu ?" .onend (by decide) (by decide) (by decide) (by decide)
    (by decide) (by decide)

/-- C2, counterexample: with the end-of-speech signal placed between the interim
results and the final result, the interim fragment is what gets delivered, and the
final text never is; a final text with surrounding white space is delivered trimmed,
not as reported; and an empty final text leaves the interim fragment to be delivered. -/
theorem native_interim_fragment_delivered :
    transcriptsOf (nativeRun (startNative true)
        [.onresult [⟨some "bonj", false⟩], .onresult [⟨some "bonjour", false⟩],
         .onspeechend, .onresult [⟨some "Bonjour, comment vas-tu ?", true⟩],
         .onend]).dispatched = [.string "bonjour"] ∧
    (nativeRun (startNative true)
        [.onresult [⟨some "bonj", false⟩], .onresult [⟨some "bonjour", false⟩],
         .onspeechend, .onresult [⟨some "Bonjour, comment vas-tu ?", true⟩],
         .onend]).scheduled = [.string "bonjour"] ∧
    transcriptsOf (nativeRun (startNative true)
        [.onresult [⟨some "bonj", false⟩], .onresult [⟨some " Bonjour", true⟩],
         .onspeechend, .onend]).dispatched = [.string "Bonjour"] ∧
    transcriptsOf (nativeRun (startNative true)
        [.onresult [⟨some "bonj", false⟩], .onresult [⟨some "", true⟩],
         .onspeechend, .onend]).dispatched = [.string "bonj"] := by
  decide

/-! ## Transcription gateway and manual finalisation -/

theorem transcribeAudio_eq (audioBlob : Blob) (gateway : String → GatewayOutcome) :
    transcribeAudio audioBlob gateway = .ok
      (match gateway (recordingName audioBlob) with
       | .success (.value transcript) => transcript
       | _ => .null) := by
  unfold transcribeAudio transcribeAudioTry
  cases gateway (recordingName audioBlob) with
  | requestThrows => rfl
  | success json => cases json <;> rfl
  | failure status r => rfl

theorem onstop_eq (s : ManualSession) (gateway : String → GatewayOutcome) (v : JSVal)
    (hv : transcribeAudio (recordedBlob s) gateway = .ok v) :
    ∃ s1, onstop s gateway = .ok s1 ∧
      s1.dispatched
        = s.dispatched ++ .speechEnd :: (if v.truthy then [.transcription v] else []) ∧
      s1.scheduled = s.scheduled ++ (if v.truthy ∧ s.hasCallback = true then [v] else []) ∧
      s1.tracksLive = s.tracksLive.map (fun _ => false) ∧
      s1.audioContextRef = false ∧
      s1.audioContextOpen = (if s.audioContextRef then false else s.audioContextOpen) := by
  unfold recordedBlob at hv
  unfold onstop recordedBlob
  simp only [hv]
  refine ⟨_, rfl, ?_, ?_, ?_, ?_, ?_⟩
  · cases ht : v.truthy <;> cases hc : s.hasCallback <;> simp
  · cases ht : v.truthy <;> cases hc : s.hasCallback <;> simp
  · cases ht : v.truthy <;> cases hc : s.hasCallback <;> simp
  · rfl
  · cases ht : v.truthy <;> cases hc : s.hasCallback <;> simp

/-- C8: `transcribeAudio` never raises: for every blob and every gateway outcome it
returns a value, which is the `transcript` field of the parsed body when the status is
a success, and `null` when the status is not a success or when the request or the
parsing throws; and when it returns `null`, the `onstop` finalisation completes,
dispatches `voice:speech_end` only and schedules no completion callback. -/
theorem transcribeAudio_never_raises (s : ManualSession) (audioBlob : Blob)
    (gateway : String → GatewayOutcome) :
    (∃ v, transcribeAudio audioBlob gateway = .ok v) ∧
    (∀ t, gateway (recordingName audioBlob) = .success (.value t) →
      transcribeAudio audioBlob gateway = .ok t) ∧
    (∀ status r, gateway (recordingName audioBlob) = .failure status r →
      transcribeAudio audioBlob gateway = .ok .null) ∧
    (gateway (recordingName audioBlob) = .requestThrows ∨
      gateway (recordingName audioBlob) = .success .throws ∨
      gateway (recordingName audioBlob) = .success .nullBody →
      transcribeAudio audioBlob gateway = .ok .null) ∧
    (transcribeAudio (recordedBlob s) gateway = .ok .null →
      ∃ s1, onstop s gateway = .ok s1 ∧
        s1.dispatched = s.dispatched ++ [.speechEnd] ∧ s1.scheduled = s.scheduled) := by
  refine ⟨⟨_, transcribeAudio_eq audioBlob gateway⟩, ?_, ?_, ?_, ?_⟩
  · intro t ht
    rw [transcribeAudio_eq, ht]
  · intro status r ht
    rw [transcribeAudio_eq, ht]
  · intro ht
    rw [transcribeAudio_eq]
    rcases ht with ht | ht | ht <;> rw [ht]
  · intro hnull
    obtain ⟨s1, h1, h2, h3, _⟩ := onstop_eq s gateway .null hnull
    refine ⟨s1, h1, ?_, ?_⟩
    · simpa [JSVal.truthy] using h2
    · simpa [JSVal.truthy] using h3

/-- C8, witness: a gateway answering HTTP 500 after a started session. -/
theorem transcribeAudio_never_raises_witness :
    transcribeAudio ⟨"audio/webm", 3⟩ (fun _ => .failure 500 false) = .ok .null ∧
    ∃ s1, onstop (startManual true ⟨0, some 1, "audio/webm", true, true, true, true⟩)
        (fun _ => .failure 500 false) = .ok s1 ∧
      s1.dispatched
        = (startManual true ⟨0, some 1, "audio/webm", true, true, true, true⟩).dispatched
          ++ [.speechEnd] ∧
      s1.scheduled
        = (startManual true ⟨0, some 1, "audio/webm", true, true, true, true⟩).scheduled :=
  ⟨(transcribeAudio_never_raises
      (startManual true ⟨0, some 1, "audio/webm", true, true, true, true⟩)
      ⟨"audio/webm", 3⟩ (fun _ => .failure 500 false)).2.2.1 500 false rfl,
   (transcribeAudio_never_raises
      (startManual true ⟨0, some 1, "audio/webm", true, true, true, true⟩)
      ⟨"audio/webm", 3⟩ (fun _ => .failure 500 false)).2.2.2.2 rfl⟩

/-! ## Order of the two bus events -/

theorem headed_speechEndFirst (log : List BusEvent) (h : HeadedBySpeechEnd log) :
    SpeechEndFirst log := by
  intro l1 t l2 hlog
  rcases h with h | ⟨rest, h⟩
  · rw [h] at hlog
    cases l1 <;> simp at hlog
  · rw [h] at hlog
    cases l1 with
    | nil => simp at hlog
    | cons x xs =>
      simp only [List.cons_append, List.cons.injEq] at hlog
      rw [← hlog.1]
      exact List.mem_cons_self _ _

theorem headed_append (log more : List BusEvent) (h : ∃ rest, log = .speechEnd :: rest) :
    ∃ rest, log ++ more = .speechEnd :: rest := by
  obtain ⟨rest, h⟩ := h
  exact ⟨rest ++ more, by rw [h]; rfl⟩

theorem checkSilence_dispatched (s : ManualSession) (now : Int) (average : ℚ) :
    (checkSilence s now average).dispatched = s.dispatched := by
  unfold checkSilence
  dsimp only
  split_ifs <;> rfl

theorem manualStep_headed (s : ManualSession) (e : ManualEvent)
    (h : HeadedBySpeechEnd s.dispatched) : HeadedBySpeechEnd (manualStep s e).dispatched := by
  cases e with
  | frame sample =>
    simp only [manualStep, animationFrame]
    split
    · exact h
    · rw [checkSilence_dispatched]; exact h
  | dataavailable size =>
    simp only [manualStep, ondataavailable]
    split <;> exact h
  | stopRecording =>
    simp only [manualStep, stopRecordingManual]
    split_ifs <;> exact h
  | onstop gateway =>
    obtain ⟨v, hv⟩ : ∃ v, transcribeAudio (recordedBlob s) gateway = .ok v :=
      ⟨_, transcribeAudio_eq _ _⟩
    obtain ⟨s1, h1, h2, _⟩ := onstop_eq s gateway v hv
    simp only [manualStep, h1, h2]
    right
    rcases h with h | h
    · rw [h]; exact ⟨_, rfl⟩
    · exact headed_append _ _ h

theorem manualRun_headed (evs : List ManualEvent) (s : ManualSession)
    (h : HeadedBySpeechEnd s.dispatched) : HeadedBySpeechEnd (manualRun s evs).dispatched := by
  induction evs generalizing s with
  | nil => exact h
  | cons e es ih => exact ih _ (manualStep_headed s e h)

theorem startManual_dispatched (hasCallback : Bool) (env : SetupEnv) :
    (startManual hasCallback env).dispatched = [] := by
  unfold startManual
  cases env.getUserMedia with
  | none => rfl
  | some n =>
    simp only
    split
    · rfl
    · split
      · rfl
      · split
        · rfl
        · split <;> rfl

theorem nativeStep_headed (s : NativeSession) (e : NativeEvent)
    (h : ∃ rest, s.dispatched = .speechEnd :: rest) :
    ∃ rest, (nativeStep s e).dispatched = .speechEnd :: rest := by
  cases e with
  | onstart => exact h
  | onresult r => exact h
  | onerror => exact h
  | onspeechend =>
    simp only [nativeStep, onspeechend]
    split
    · simpa [deliver] using headed_append _ [.speechEnd, .transcription _] h
    · exact headed_append _ _ h
  | onend =>
    simp only [nativeStep, onend]
    split
    · split
      · exact headed_append _ _ h
      · exact h
    · exact h

theorem nativeStep_headed_first (s : NativeSession) (h : s.dispatched = []) :
    ∃ rest, (nativeStep s .onspeechend).dispatched = .speechEnd :: rest := by
  simp only [nativeStep, onspeechend]
  split
  · exact ⟨[.transcription (.string (jsTrim s.latestPartialRef))], by simp [deliver, h]⟩
  · exact ⟨[], by simp [h]⟩

theorem nativeRun_headed (evs : List NativeEvent) (s : NativeSession)
    (h : ∃ rest, s.dispatched = .speechEnd :: rest) :
    ∃ rest, (nativeRun s evs).dispatched = .speechEnd :: rest := by
  induction evs generalizing s with
  | nil => exact h
  | cons e es ih => exact ih _ (nativeStep_headed s e h)

/-- C6 (as the code has it): in every manual-mode session, whatever happens after its
set-up, and in every native-mode session whose first completion trigger is the
end-of-speech signal, each `voice:transcription` event on the bus has a
`voice:speech_end` event before it. -/
theorem speech_end_precedes_transcription (hasCallback : Bool) (env : SetupEnv)
    (mevs : List ManualEvent) (pre post : List NativeEvent)
    (hpre : ∀ e ∈ pre, e ≠ .onspeechend ∧ e ≠ .onend) :
    SpeechEndFirst (manualRun (startManual hasCallback env) mevs).dispatched ∧
    SpeechEndFirst
      (nativeRun (startNative hasCallback) (pre ++ .onspeechend :: post)).dispatched := by
  constructor
  · exact headed_speechEndFirst _
      (manualRun_headed mevs _ (Or.inl (startManual_dispatched hasCallback env)))
  · apply headed_speechEndFirst
    right
    rw [nativeRun_append, nativeRun_cons]
    apply nativeRun_headed
    have hu := nativeRun_undelivered pre (startNative hasCallback) hpre
      (startNative_undelivered hasCallback)
    apply nativeStep_headed_first
    exact hu.2.1

/-- C6, witness: a manual session finalised with a transcript, and a native session
whose end-of-speech signal comes first. -/
theorem speech_end_precedes_transcription_witness :
    SpeechEndFirst (manualRun
      (startManual true ⟨0, some 1, "audio/webm", true, true, true, true⟩)
      [.frame (1500, 10), .onstop (fun _ => .success (.value (.string "salut")))]).dispatched ∧
    SpeechEndFirst (nativeRun (startNative true)
      ([.onresult [⟨some "salut", true⟩]] ++ .onspeechend :: [.onend])).dispatched :=
  speech_end_precedes_transcription true ⟨0, some 1, "audio/webm", true, true, true, true⟩
    [.frame (1500, 10), .onstop (fun _ => .success (.value (.string "salut")))]
    [.onresult [⟨some "salut", true⟩]] [.onend] (by decide)

/-- C6, counterexample: a native session that ends without an end-of-speech signal
dispatches `voice:transcription` from `onend`, and no `voice:speech_end` at all. -/
theorem native_session_end_skips_speech_end :
    (nativeRun (startNative true) [.onresult [⟨some "bonjour", true⟩], .onend]).dispatched
      = [.transcription (.string "bonjour")] ∧
    ¬ SpeechEndFirst
      (nativeRun (startNative true) [.onresult [⟨some "bonjour", true⟩], .onend]).dispatched := by
  refine ⟨by decide, fun h => ?_⟩
  have hmem := h [] (.string "bonjour") [] (by decide)
  simp at hmem

/-! ## Release of the microphone -/

theorem onstop_releases (s : ManualSession) (gateway : String → GatewayOutcome) :
    ∃ s1, onstop s gateway = .ok s1 ∧ (∀ b ∈ s1.tracksLive, b = false) ∧
      s1.tracksLive.length = s.tracksLive.length ∧ s1.audioContextRef = false ∧
      (s.audioContextRef = true → s1.audioContextOpen = false) := by
  obtain ⟨s1, h1, _, _, h4, h5, h6⟩ :=
    onstop_eq s gateway _ (transcribeAudio_eq (recordedBlob s) gateway)
  refine ⟨s1, h1, ?_, ?_, h5, ?_⟩
  · intro b hb
    rw [h4] at hb
    simpa using (List.mem_map.1 hb).choose_spec.2.symm
  · rw [h4, List.length_map]
  · intro hr
    rw [h6, hr]
    rfl

/-- C7, the failing path: `getUserMedia` resolves with a one-track stream and the
next set-up step throws; the `catch` block only alerts, so the track stays live, also
after a later `stopRecording` and animation frame; when the step that throws comes
after the AudioContext was created, the context stays open as well. -/
theorem setup_error_leaks_microphone :
    (startManual true ⟨0, some 1, "audio/webm", false, true, true, true⟩).streamAcquired
      = true ∧
    (startManual true ⟨0, some 1, "audio/webm", false, true, true, true⟩).alertShown = true ∧
    (startManual true ⟨0, some 1, "audio/webm", false, true, true, true⟩).tracksLive
      = [true] ∧
    (manualRun (startManual true ⟨0, some 1, "audio/webm", false, true, true, true⟩)
      [.stopRecording, .frame (2000, 0)]).tracksLive = [true] ∧
    (manualRun (startManual true ⟨0, some 1, "audio/webm", true, true, false, true⟩)
      [.stopRecording, .frame (2000, 0)]).tracksLive = [true] ∧
    (manualRun (startManual true ⟨0, some 1, "audio/webm", true, true, false, true⟩)
      [.stopRecording, .frame (2000, 0)]).audioContextOpen = true := by
  decide

/-! ## Silence detector -/

theorem frame_loud (s : ManualSession) (t : Int) (a : ℚ) (h : Polling s)
    (ha : a > SILENCE_THRESHOLD) :
    Polling (animationFrame s (t, a)) ∧ (animationFrame s (t, a)).lastSoundTime = t := by
  obtain ⟨h1, h2, h3, h4, h5⟩ := h
  simp [animationFrame, checkSilence, Polling, h1, h2, h3, h4, h5, ha]

theorem frame_quiet_short (s : ManualSession) (t : Int) (a : ℚ) (h : Polling s)
    (ha : a ≤ SILENCE_THRESHOLD) (hs : ¬ t - s.lastSoundTime > SILENCE_DURATION) :
    Polling (animationFrame s (t, a)) ∧
      (animationFrame s (t, a)).lastSoundTime = s.lastSoundTime := by
  obtain ⟨h1, h2, h3, h4, h5⟩ := h
  have ha2 : ¬ a > SILENCE_THRESHOLD := not_lt.2 ha
  simp [animationFrame, checkSilence, Polling, h1, h2, h3, h4, h5, ha2, hs]

theorem frame_quiet_long (s : ManualSession) (t : Int) (a : ℚ) (h : Polling s)
    (ha : a ≤ SILENCE_THRESHOLD) (hl : t - s.lastSoundTime > SILENCE_DURATION) :
    SilenceConfirmed (animationFrame s (t, a)) := by
  obtain ⟨h1, h2, h3, h4, h5⟩ := h
  have ha2 : ¬ a > SILENCE_THRESHOLD := not_lt.2 ha
  simp [animationFrame, checkSilence, SilenceConfirmed, h1, h2, h3, h4, h5, ha2, hl]

theorem checkSilence_confirmed (s : ManualSession) (now : Int) (average : ℚ)
    (h : SilenceConfirmed s) : checkSilence s now average = s := by
  simp [checkSilence, h.1]

theorem pollRun_confirmed (xs : List (Int × ℚ)) (s : ManualSession)
    (h : SilenceConfirmed s) : pollRun s xs = s := by
  induction xs with
  | nil => rfl
  | cons x xs ih =>
    have hx : animationFrame s x = s := by simp [animationFrame, h.2.2.1]
    show pollRun (animationFrame s x) xs = s
    rw [hx, ih]

theorem pollRun_append (s : ManualSession) (a b : List (Int × ℚ)) :
    pollRun s (a ++ b) = pollRun (pollRun s a) b := by
  simp [pollRun, List.foldl_append]

theorem pollRun_either (xs : List (Int × ℚ)) (s : ManualSession) (h : Polling s) :
    Polling (pollRun s xs) ∨ SilenceConfirmed (pollRun s xs) := by
  induction xs generalizing s with
  | nil => exact Or.inl h
  | cons x xs ih =>
    obtain ⟨t, a⟩ := x
    show Polling (pollRun (animationFrame s (t, a)) xs) ∨
      SilenceConfirmed (pollRun (animationFrame s (t, a)) xs)
    by_cases ha : a > SILENCE_THRESHOLD
    · exact ih _ (frame_loud s t a h ha).1
    · by_cases hl : t - s.lastSoundTime > SILENCE_DURATION
      · have hc := frame_quiet_long s t a h (not_lt.1 ha) hl
        rw [pollRun_confirmed xs _ hc]
        exact Or.inr hc
      · exact ih _ (frame_quiet_short s t a h (not_lt.1 ha) hl).1

theorem pollRun_quiet (quiet : List (Int × ℚ)) (s : ManualSession) (h : Polling s)
    (hq : ∀ x ∈ quiet, x.2 ≤ SILENCE_THRESHOLD)
    (hl : ∃ x ∈ quiet, x.1 - s.lastSoundTime > SILENCE_DURATION) :
    SilenceConfirmed (pollRun s quiet) := by
  induction quiet generalizing s with
  | nil => obtain ⟨x, hx, _⟩ := hl; cases hx
  | cons y ys ih =>
    obtain ⟨t, a⟩ := y
    have ha : a ≤ SILENCE_THRESHOLD := hq (t, a) (List.mem_cons_self _ _)
    show SilenceConfirmed (pollRun (animationFrame s (t, a)) ys)
    by_cases hnow : t - s.lastSoundTime > SILENCE_DURATION
    · have hc := frame_quiet_long s t a h ha hnow
      rw [pollRun_confirmed ys _ hc]
      exact hc
    · obtain ⟨hp, hlast⟩ := frame_quiet_short s t a h ha hnow
      apply ih _ hp (fun x hx => hq x (List.mem_cons_of_mem _ hx))
      obtain ⟨x, hx, hxl⟩ := hl
      rcases List.mem_cons.1 hx with hx | hx
      · subst hx; exact absurd hxl hnow
      · exact ⟨x, hx, by rw [hlast]; exact hxl⟩

theorem startManual_polling (hasCallback : Bool) (env : SetupEnv) (n : Nat)
    (hmedia : env.getUserMedia = some n) (hrec : env.recorderCtorOk = true)
    (hctx : env.audioCtxCtorOk = true) (hgraph : env.graphOk = true)
    (hstart : env.recorderStartOk = true) :
    Polling (startManual hasCallback env) := by
  simp [startManual, Polling, hmedia, hrec, hctx, hgraph, hstart, idleManual]

/-- C5 (as the code has it): in a started manual session, a polled sample above the
threshold of 30 resets `lastSoundTime` while the loop runs; and when the samples after
a loud one all stay at or below the threshold and one of them is polled more than
1000 ms after it, exactly one recorder stop has been issued at the end of the series,
no animation frame is scheduled any more, and every later frame or `checkSilence` call
leaves the session as it is. -/
theorem silence_confirmed_once (hasCallback : Bool) (env : SetupEnv) (n : Nat)
    (pre quiet later : List (Int × ℚ)) (tL : Int) (aL : ℚ) (now : Int) (average : ℚ)
    (hmedia : env.getUserMedia = some n) (hrec : env.recorderCtorOk = true)
    (hctx : env.audioCtxCtorOk = true) (hgraph : env.graphOk = true)
    (hstart : env.recorderStartOk = true)
    (hloud : aL > SILENCE_THRESHOLD)
    (hquiet : ∀ x ∈ quiet, x.2 ≤ SILENCE_THRESHOLD)
    (hlong : ∃ x ∈ quiet, x.1 - tL > SILENCE_DURATION) :
    ((pollRun (startManual hasCallback env) pre).recorderStops = 0 →
      (pollRun (startManual hasCallback env) (pre ++ [(tL, aL)])).lastSoundTime = tL) ∧
    (pollRun (startManual hasCallback env) (pre ++ (tL, aL) :: quiet)).recorderStops = 1 ∧
    (pollRun (startManual hasCallback env) (pre ++ (tL, aL) :: quiet)).pendingFrames = 0 ∧
    pollRun (pollRun (startManual hasCallback env) (pre ++ (tL, aL) :: quiet)) later
      = pollRun (startManual hasCallback env) (pre ++ (tL, aL) :: quiet) ∧
    checkSilence (pollRun (startManual hasCallback env) (pre ++ (tL, aL) :: quiet))
      now average = pollRun (startManual hasCallback env) (pre ++ (tL, aL) :: quiet) := by
  have h0 := startManual_polling hasCallback env n hmedia hrec hctx hgraph hstart
  have hfin : SilenceConfirmed
      (pollRun (startManual hasCallback env) (pre ++ (tL, aL) :: quiet)) := by
    rw [pollRun_append]
    show SilenceConfirmed
      (pollRun (animationFrame (pollRun (startManual hasCallback env) pre) (tL, aL)) quiet)
    rcases pollRun_either pre _ h0 with hp | hc
    · obtain ⟨hp2, hlast⟩ := frame_loud _ tL aL hp hloud
      exact pollRun_quiet quiet _ hp2 hquiet (by rw [hlast]; exact hlong)
    · have hx : animationFrame (pollRun (startManual hasCallback env) pre) (tL, aL)
          = pollRun (startManual hasCallback env) pre := pollRun_confirmed [(tL, aL)] _ hc
      rw [hx, pollRun_confirmed quiet _ hc]
      exact hc
  refine ⟨?_, hfin.2.2.2, hfin.2.2.1, pollRun_confirmed later _ hfin,
    checkSilence_confirmed _ now average hfin⟩
  intro hzero
  rw [pollRun_append]
  rcases pollRun_either pre _ h0 with hp | hc
  · exact (frame_loud _ tL aL hp hloud).2
  · rw [hc.2.2.2] at hzero
    exact absurd hzero (by decide)

/-- C5, witness: a loud sample at 0 ms, then quiet samples up to 1016 ms. -/
theorem silence_confirmed_once_witness :
    (pollRun (startManual true ⟨0, some 1, "audio/webm", true, true, true, true⟩)
        ([] ++ (0, 50) :: [(500, 10), (1000, 10), (1016, 10)])).recorderStops = 1 ∧
    (pollRun (startManual true ⟨0, some 1, "audio/webm", true, true, true, true⟩)
        ([] ++ (0, 50) :: [(500, 10), (1000, 10), (1016, 10)])).pendingFrames = 0 :=
  have h := silence_confirmed_once true ⟨0, some 1, "audio/webm", true, true, true, true⟩ 1
    [] [(500, 10), (1000, 10), (1016, 10)] [(1032, 80)] 0 50 1048 80 rfl rfl rfl rfl rfl
    (by norm_num [SILENCE_THRESHOLD])
    (by simp [SILENCE_THRESHOLD]; norm_num)
    ⟨(1016, 10), by simp, by decide⟩
  ⟨h.2.1, h.2.2.1⟩

/-- C5, counterexample: the samples stay below the threshold for exactly 1000 ms after
the loud sample at 0 ms, which is at least one second, and no stop is issued: the loop
is still scheduled. -/
theorem silence_of_one_second_not_confirmed :
    (pollRun (startManual true ⟨0, some 1, "audio/webm", true, true, true, true⟩)
        [(0, 50), (500, 10), (1000, 10)]).recorderStops = 0 ∧
    (pollRun (startManual true ⟨0, some 1, "audio/webm", true, true, true, true⟩)
        [(0, 50), (500, 10), (1000, 10)]).pendingFrames = 1 := by
  decide

/-! ## Playback -/

/-- What `stopAudio` does from every playback state, whether or not
`speechSynthesis.cancel()` throws: the counter is 0, the grace-timer ref is cleared,
`isPlaying` is false from the time of the call, and of the pending timers exactly the
one the ref named is removed. -/
theorem stopAudio_hard_reset (s : Playback) (cancelThrows : Bool) :
    (stopAudio s cancelThrows).activeUtterancesRef = 0 ∧
    (stopAudio s cancelThrows).endGraceTimeoutRef = none ∧
    (stopAudio s cancelThrows).isPlaying = false ∧
    (stopAudio s cancelThrows).timers
      = s.timers.filter (fun tm => some tm.id ≠ s.endGraceTimeoutRef) ∧
    (stopAudio s cancelThrows).now = s.now ∧
    (stopAudio s cancelThrows).playingLog = s.playingLog ++ [(s.now, false)] := by
  cases h : s.endGraceTimeoutRef with
  | none => simp [stopAudio, setIsPlaying, h]
  | some id => simp [stopAudio, setIsPlaying, clearTimeout, h]

/-- C3, the failing input: `playAudio` is called at 0 ms and at 50 ms; the first
utterance plays from 60 ms to 1000 ms, the second from 1010 ms to 1100 ms.  The timer
armed when the first one ended is never cancelled and fires at 1200 ms with the
counter at zero: `isPlaying` turns false 100 ms after the last utterance ended. -/
theorem stale_grace_timer_asserts_idle_early :
    (advance (playbackRun initPlayback
      [(0, .playAudio 1 false), (50, .playAudio 2 false), (60, .onstart 1), (1000, .onend 1),
       (1010, .onstart 2), (1100, .onend 2)]) 1199).isPlaying = true ∧
    (advance (playbackRun initPlayback
      [(0, .playAudio 1 false), (50, .playAudio 2 false), (60, .onstart 1), (1000, .onend 1),
       (1010, .onstart 2), (1100, .onend 2)]) 1200).isPlaying = false ∧
    (advance (playbackRun initPlayback
      [(0, .playAudio 1 false), (50, .playAudio 2 false), (60, .onstart 1), (1000, .onend 1),
       (1010, .onstart 2), (1100, .onend 2)]) 1200).playingLog
      = [(60, true), (1010, true), (1200, false)] := by
  decide

/-- C9, the failing input: two utterances queued by two `playAudio` calls end 100 ms
apart; `handleDone` arms a second timer over the first without clearing it, so two
grace timers are pending and the ref names only the second. -/
theorem two_grace_timers_pending :
    (playbackRun initPlayback
      [(0, .playAudio 1 false), (10, .playAudio 2 false), (20, .onstart 1), (500, .onend 1),
       (510, .onstart 2), (600, .onend 2)]).timers = [⟨1, 700⟩, ⟨2, 800⟩] ∧
    (playbackRun initPlayback
      [(0, .playAudio 1 false), (10, .playAudio 2 false), (20, .onstart 1), (500, .onend 1),
       (510, .onstart 2), (600, .onend 2)]).endGraceTimeoutRef = some 2 := by
  decide

/-- C4, the failing input: two queued utterances end 100 ms apart, which leaves two
grace timers pending with the ref naming the second; `stopAudio` at 650 ms zeroes the
counter, clears the ref and turns `isPlaying` off, but cancels the second timer only:
the first stays pending and its callback runs at 700 ms. -/
theorem stopAudio_leaves_grace_timer_pending :
    (playbackRun initPlayback
      [(0, .playAudio 1 false), (10, .playAudio 2 false), (20, .onstart 1), (500, .onend 1),
       (510, .onstart 2), (600, .onend 2), (650, .stopAudio false)]).timers = [⟨1, 700⟩] ∧
    (playbackRun initPlayback
      [(0, .playAudio 1 false), (10, .playAudio 2 false), (20, .onstart 1), (500, .onend 1),
       (510, .onstart 2), (600, .onend 2), (650, .stopAudio false)]).endGraceTimeoutRef
      = none ∧
    (playbackRun initPlayback
      [(0, .playAudio 1 false), (10, .playAudio 2 false), (20, .onstart 1), (500, .onend 1),
       (510, .onstart 2), (600, .onend 2), (650, .stopAudio false)]).activeUtterancesRef
      = 0 ∧
    (advance (playbackRun initPlayback
      [(0, .playAudio 1 false), (10, .playAudio 2 false), (20, .onstart 1), (500, .onend 1),
       (510, .onstart 2), (600, .onend 2), (650, .stopAudio false)]) 700).playingLog
      = [(20, true), (510, true), (650, false), (700, false)] := by
  decide

theorem fireTimer_count (s : Playback) (tm : Timer) :
    (fireTimer s tm).activeUtterancesRef = s.activeUtterancesRef := by
  unfold fireTimer
  dsimp only
  split <;> rfl

theorem foldl_fireTimer_count (due : List Timer) (s : Playback) :
    (due.foldl fireTimer s).activeUtterancesRef = s.activeUtterancesRef := by
  induction due generalizing s with
  | nil => rfl
  | cons tm rest ih => rw [List.foldl_cons, ih, fireTimer_count]

theorem advance_count (s : Playback) (t : Nat) :
    (advance s t).activeUtterancesRef = s.activeUtterancesRef := by
  unfold advance
  dsimp only
  rw [foldl_fireTimer_count]

theorem playAudio_count (s : Playback) (speakThrows : Bool) :
    (playAudio s speakThrows).activeUtterancesRef = s.activeUtterancesRef := by
  unfold playAudio
  cases s.endGraceTimeoutRef <;> cases speakThrows <;> rfl

theorem handleDone_count (s : Playback) :
    (handleDone s).activeUtterancesRef = max 0 (s.activeUtterancesRef - 1) := by
  unfold handleDone
  dsimp only
  split <;> rfl

theorem playbackRun_cons (s : Playback) (ev : Nat × PlaybackEvent)
    (evs : List (Nat × PlaybackEvent)) :
    playbackRun s (ev :: evs) = playbackRun (playbackStep s ev) evs := rfl

theorem liveUtterances_cons (live : List Nat) (ev : Nat × PlaybackEvent)
    (evs : List (Nat × PlaybackEvent)) :
    liveUtterances live (ev :: evs) = liveUtterances (liveAfter live ev.2) evs := rfl

theorem done_count (s : Playback) (t u : Nat) (live : List Nat)
    (hs : s.activeUtterancesRef = live.length) (hu : u ∈ live) :
    (handleDone (advance s t)).activeUtterancesRef = ((live.erase u).length : Int) := by
  have hpos : 0 < live.length := List.length_pos_of_mem hu
  rw [handleDone_count, advance_count, hs, List.length_erase_of_mem hu]
  omega

theorem matched_count (evs : List (Nat × PlaybackEvent)) (s : Playback) (live : List Nat)
    (hs : s.activeUtterancesRef = live.length) (hm : matched live evs) :
    (playbackRun s evs).activeUtterancesRef = (liveUtterances live evs).length := by
  induction evs generalizing s live with
  | nil => exact hs
  | cons ev rest ih =>
    obtain ⟨t, e⟩ := ev
    rw [playbackRun_cons, liveUtterances_cons]
    cases e with
    | playAudio u speakThrows =>
      apply ih _ _ _ hm
      show (playAudio (advance s t) speakThrows).activeUtterancesRef = _
      rw [playAudio_count, advance_count, hs]
    | onstart u =>
      apply ih _ _ _ hm.2
      show ((advance s t).activeUtterancesRef + 1 : Int) = ((u :: live).length : Int)
      rw [advance_count, hs]
      simp
    | onend u => exact ih _ _ (done_count s t u live hs hm.1) hm.2
    | onerror u => exact ih _ _ (done_count s t u live hs hm.1) hm.2
    | stopAudio cancelThrows => exact absurd hm (by simp [matched])

/-- C10 (as the code has it): for every timed sequence of `playAudio` calls and
start, end and error callbacks in which each end or error belongs to an utterance that
has started and not yet finished, the counter equals the number of utterances that
have started and have not yet ended or errored. -/
theorem counter_counts_live_utterances (evs : List (Nat × PlaybackEvent))
    (hm : matched [] evs) :
    (playbackRun initPlayback evs).activeUtterancesRef = (liveUtterances [] evs).length :=
  matched_count evs initPlayback [] rfl hm

/-- C10, witness: two queued utterances, the first ended, the second playing. -/
theorem counter_counts_live_utterances_witness :
    (playbackRun initPlayback
      [(0, .playAudio 1 false), (10, .playAudio 2 false), (20, .onstart 1), (500, .onend 1),
       (510, .onstart 2)]).activeUtterancesRef
      = (liveUtterances []
      [(0, .playAudio 1 false), (10, .playAudio 2 false), (20, .onstart 1), (500, .onend 1),
       (510, .onstart 2)]).length :=
  counter_counts_live_utterances
    [(0, .playAudio 1 false), (10, .playAudio 2 false), (20, .onstart 1), (500, .onend 1),
     (510, .onstart 2)] (by simp [matched])

/-- C10, counterexample: utterance 1 is playing when an error is reported for
utterance 2, which never started; the shared counter drops to zero although one
utterance is live, and the grace timer then turns `isPlaying` off. -/
theorem error_of_unstarted_utterance_lowers_count :
    (playbackRun initPlayback
      [(0, .playAudio 1 false), (10, .playAudio 2 false), (20, .onstart 1),
       (30, .onerror 2)]).activeUtterancesRef = 0 ∧
    liveUtterances []
      [(0, .playAudio 1 false), (10, .playAudio 2 false), (20, .onstart 1),
       (30, .onerror 2)] = [1] ∧
    (advance (playbackRun initPlayback
      [(0, .playAudio 1 false), (10, .playAudio 2 false), (20, .onstart 1),
       (30, .onerror 2)]) 230).isPlaying = false := by
  decide

end UseVoice
